import Mathlib

/-!
Shallow embedding of the AdmGPT frontend (the client side of the orchestration
event protocol), translated from:

* `src/unnamed/part_000` — the shared type declarations (`Message`,
  `InteractiveAuthConfig`, `ConversationSummary`);
* `src/unnamed/part_002` — `ChatArea`: `handleSend` (the SSE read loop and its
  per-event message updates) and `handleStop`;
* `src/unnamed/part_001` — `AuthPrompt.handleSubmit` (token-paste submission);
* `src/frontend/src/components/IntegrationsSettings.tsx` — credential inputs
  with the per-field visibility toggle;
* `src/frontend/src/App.tsx` — `loadConversations` (sorting) and
  `handleTitleUpdate`.

Platform primitives (ECMAScript `String.prototype.trim`, `Date` parsing,
`Array.prototype.sort`, the TextDecoder/SSE framing, `JSON.parse`) are modelled
explicitly: trim is defined structurally below, `Date` parsing is an explicit
`String → Option Int` parameter, `Array.prototype.sort` is `List.mergeSort`
(stable and sorted with respect to the comparator, as ES2019 requires), and an
SSE line is abstracted to a `Frame` (a parsed event, the `[DONE]` marker, or
noise — a non-`data:` line or a line whose JSON fails to parse, both of which
the code ignores).
-/

namespace AdmGPT

/-- Model of ECMAScript `String.prototype.trim` (used by the frontend via
`.trim()`): strip whitespace from both ends. Defined structurally on the
character list so that it evaluates by kernel reduction. -/
def jsTrim (s : String) : String :=
  String.mk (((s.toList.dropWhile Char.isWhitespace).reverse.dropWhile
    Char.isWhitespace).reverse)

/-- Payload carried by an `auth_required` event (its `auth_config` object):
the fields of `InteractiveAuthConfig` (src/unnamed/part_000) that the server
sends and `ChatArea` consumes. `server_name` travels next to it on the event
itself and is copied in by the client. -/
structure AuthPayload where
  type : String
  instructions : String
  target_env_var : String
  auth_url : Option String
  button_text : Option String
deriving DecidableEq

/-- The `auth_config` stored on an `auth_required` message by
`ChatArea.handleSend`: `{ server_name: event.server_name, ...event.auth_config }`. -/
structure AuthConfig where
  server_name : String
  type : String
  instructions : String
  target_env_var : String
  auth_url : Option String
  button_text : Option String
deriving DecidableEq

/-- The `Message` interface of src/unnamed/part_000, restricted to the fields
`ChatArea` reads and writes (`role`, `content`, `type`, `auth_config`). -/
structure Message where
  role : String
  content : String
  type : Option String
  auth_config : Option AuthConfig
deriving DecidableEq

/-- One parsed server-sent event, after `JSON.parse`, with the `type` tags the
client dispatches on in `ChatArea.handleSend`. -/
inductive SSEEvent where
  | token (content : String)
  | thought (content : String)
  | question (content : String)
  | auth_required (server_name : String) (auth_config : AuthPayload)
  | intent (content : String)
  | plan (content : String)
  | error (content : String)
  | title (content : String)
deriving DecidableEq

/-- One line of a received chunk, as the read loop classifies it: a `data:`
line whose JSON parses to a recognised event, the `data: [DONE]` marker, or
noise (a non-`data:` line, unparsable JSON, or an unrecognised event type —
all of which leave the state untouched). -/
inductive Frame where
  | data (e : SSEEvent)
  | doneMarker
  | noise
deriving DecidableEq

/-- The client state that `ChatArea.handleSend` threads through the stream:
the `messages` list, the `aiContent` accumulator, and the
`onTitleUpdate(conversationId, title)` calls made so far. -/
structure ChatState where
  messages : List Message
  aiContent : String
  titleUpdates : List (String × String)
deriving DecidableEq

/-- Per-event state update of `ChatArea.handleSend` (src/unnamed/part_002,
the `if/else if` chain on `event.type`). Note that on a `token` event the
accumulator `aiContent` is extended and the *whole* accumulator becomes the
content of the last assistant message — pushed as a new message when the list
is empty or its last element is a user message or a thought, and otherwise
written over the last message in place (keeping its `role` and `auth_config`). -/
def processEvent (conversationId : String) (s : ChatState) : SSEEvent → ChatState
  | .token c =>
      let newContent := s.aiContent ++ c
      match s.messages.getLast? with
      | none =>
          ⟨s.messages ++ [⟨"assistant", newContent, some "message", none⟩],
            newContent, s.titleUpdates⟩
      | some lastMsg =>
          if lastMsg.role = "user" ∨ lastMsg.type = some "thought" then
            ⟨s.messages ++ [⟨"assistant", newContent, some "message", none⟩],
              newContent, s.titleUpdates⟩
          else
            ⟨s.messages.dropLast ++
              [{ lastMsg with content := newContent, type := some "message" }],
              newContent, s.titleUpdates⟩
  | .thought c =>
      { s with messages := s.messages ++ [⟨"assistant", c, some "thought", none⟩] }
  | .question c =>
      { s with messages := s.messages ++ [⟨"assistant", c, some "message", none⟩] }
  | .auth_required sn p =>
      { s with messages := s.messages ++
          [⟨"assistant", p.instructions, some "auth_required",
            some ⟨sn, p.type, p.instructions, p.target_env_var, p.auth_url,
              p.button_text⟩⟩] }
  | .intent c =>
      { s with messages := s.messages ++ [⟨"intent", c, some "intent", none⟩] }
  | .plan c =>
      { s with messages := s.messages ++ [⟨"plan", c, some "plan", none⟩] }
  | .error c =>
      { s with messages := s.messages ++ [⟨"error", c, some "error", none⟩] }
  | .title c =>
      { s with titleUpdates := s.titleUpdates ++ [(conversationId, c)] }

/-- Events on which the inner `for (const line of lines)` loop executes
`break`: only `auth_required` (after appending its message). -/
def isBreakEvent : SSEEvent → Bool
  | .auth_required _ _ => true
  | _ => false

/-- Processing of the lines of ONE received chunk, with the `break` semantics
of the source: `data: [DONE]` stops this chunk's line loop before any update,
and `auth_required` stops it after appending its message. The `break` only
leaves the line loop — the outer `while` read loop continues with the next
chunk, which is why this function is folded over chunks below. -/
def processLines (conversationId : String) (s : ChatState) : List Frame → ChatState
  | [] => s
  | Frame.noise :: rest => processLines conversationId s rest
  | Frame.doneMarker :: _ => s
  | Frame.data e :: rest =>
      if isBreakEvent e then processEvent conversationId s e
      else processLines conversationId (processEvent conversationId s e) rest

/-- The whole stream: the outer `reader.read()` loop over chunks. -/
def processChunks (conversationId : String) (s : ChatState)
    (chunks : List (List Frame)) : ChatState :=
  chunks.foldl (fun acc chunk => processLines conversationId acc chunk) s

/-- The React state of `ChatArea` that `handleSend` reads and writes. -/
structure UIState where
  messages : List Message
  input : String
  isLoading : Bool
  isStreaming : Bool
deriving DecidableEq

/-- How the fetch/read of one turn ended: the stream was read to its natural
end (`normal`), aborted by the user (the promise rejects with `AbortError`),
or failed with any other exception (HTTP failure or a mid-read transport
error), which the `catch` turns into a fallback assistant message. -/
inductive Termination where
  | normal
  | abortError
  | otherError
deriving DecidableEq

/-- The observable outcome of one `handleSend` invocation: the final React
state, the `onTitleUpdate` calls made, and whether a network request was
issued at all. -/
structure SendOutcome where
  state : UIState
  titleUpdates : List (String × String)
  requestSent : Bool
deriving DecidableEq

/-- The fallback message pushed by the `catch` branch for a non-abort error
(src/unnamed/part_002 line 165); it carries no `type` field. -/
def errorFallbackMessage : Message :=
  ⟨"assistant", "Sorry, I encountered an error. Please try again.", none, none⟩

/-- Shallow embedding of `ChatArea.handleSend` (src/unnamed/part_002).
The guard `if (!input.trim() || !conversationId) return;` makes the call a
no-op. Otherwise the user message is appended, the input cleared, the chunks
received before termination are processed by the read loop, a non-abort error
appends `errorFallbackMessage`, and the `finally` block clears both flags. -/
def handleSend (st : UIState) (conversationId : Option String)
    (chunks : List (List Frame)) (term : Termination) : SendOutcome :=
  if jsTrim st.input = "" ∨ conversationId = none then
    ⟨st, [], false⟩
  else
    let cid := conversationId.getD ""
    let userMsg : Message := ⟨"user", st.input, none, none⟩
    let s0 : ChatState := ⟨st.messages ++ [userMsg], "", []⟩
    let s1 := processChunks cid s0 chunks
    let msgs :=
      match term with
      | .otherError => s1.messages ++ [errorFallbackMessage]
      | _ => s1.messages
    ⟨⟨msgs, "", false, false⟩, s1.titleUpdates, true⟩

/-- Shallow embedding of `ChatArea.handleStop`: when an abort controller is
present, abort and clear both flags; otherwise leave them as they are. -/
def handleStop (hasController : Bool) (isStreaming isLoading : Bool) :
    Bool × Bool :=
  if hasController then (false, false) else (isStreaming, isLoading)

/-- How the awaited `user.submitMCPAuth` call of one submit attempt ended. -/
inductive SubmitOutcome where
  | success
  | failure
deriving DecidableEq

/-- The observable outcome of one `AuthPrompt.handleSubmit` invocation:
the request body sent to `/user/mcp-auth` (as `(server_name, token,
token_name)`), if any, and the resulting component state. -/
structure SubmitResult where
  sent : Option (String × String × String)
  isSubmitting : Bool
  isSuccess : Bool
  error : Option String
deriving DecidableEq

/-- Shallow embedding of `AuthPrompt.handleSubmit` (src/unnamed/part_001)
composed with `user.submitMCPAuth` (api.ts): guard on `!token.trim()`, then
send `(serverName, token.trim(), targetEnvVar)`; on success set `isSuccess`,
on failure set the error text; `finally` clears `isSubmitting`. The component
only renders this form while `isSuccess` is false, so the pre-state has
`isSuccess = false` and `isSubmitting = false`; `prevError` is the pre-state
error, kept untouched by the guard. -/
def handleSubmit (serverName targetEnvVar tokenField : String)
    (prevError : Option String) (outcome : SubmitOutcome) : SubmitResult :=
  if jsTrim tokenField = "" then
    ⟨none, false, false, prevError⟩
  else
    match outcome with
    | .success =>
        ⟨some (serverName, jsTrim tokenField, targetEnvVar), false, true, none⟩
    | .failure =>
        ⟨some (serverName, jsTrim tokenField, targetEnvVar), false, false,
          some "Failed to save token. Please try again."⟩

/-- Field identifier used by `IntegrationsSettings.toggleVisibility`:
the template string `server.name + ":" + envVar`. -/
def fieldId (serverName envVar : String) : String :=
  serverName ++ ":" ++ envVar

/-- Shallow embedding of `IntegrationsSettings.toggleVisibility`: the
`visibleFields` set with the field id removed when present, added when not. -/
def toggleVisibility (visible : List String) (serverName envVar : String) :
    List String :=
  let id := fieldId serverName envVar
  if id ∈ visible then visible.erase id else visible ++ [id]

/-- The `type` attribute of the credential input rendered by
`IntegrationsSettings`: `isVisible ? "text" : "password"`. -/
def inputType (visible : List String) (serverName envVar : String) : String :=
  if fieldId serverName envVar ∈ visible then "text" else "password"

/-- The `value` attribute of the credential input rendered by
`IntegrationsSettings`: `userConfigs[server.name]?.[envVar] || ''`, where
`userConfigs` is exactly what `user.getUserMCPConfigs` returned from the
server (a record of previously saved credential values). -/
def inputValue (configs : List (String × List (String × String)))
    (serverName envVar : String) : String :=
  match configs.lookup serverName with
  | some kv => (kv.lookup envVar).getD ""
  | none => ""

/-- The `ConversationSummary` interface of src/unnamed/part_000. -/
structure ConversationSummary where
  id : String
  title : String
  created_at : String
  updated_at : Option String
deriving DecidableEq

/-- The timestamp string the comparator in `App.loadConversations` feeds to
`new Date(...)`: `a.updated_at || a.created_at` — JavaScript falsy
coalescing, so an *empty-string* `updated_at` also falls back to
`created_at`, not only a missing one. -/
def effectiveTimestamp (c : ConversationSummary) : String :=
  match c.updated_at with
  | some u => if u = "" then c.created_at else u
  | none => c.created_at

/-- The numeric key of the comparator in `App.loadConversations`:
`new Date(ts).getTime()` with `NaN` replaced by `0`. `parseTime` is the
platform `Date` parser, `none` standing for `NaN`. -/
def sortKey (parseTime : String → Option Int) (c : ConversationSummary) : Int :=
  (parseTime (effectiveTimestamp c)).getD 0

/-- Shallow embedding of `App.loadConversations`: sort the summaries returned
by the server with the comparator `(a, b) => validB - validA`. The platform
`Array.prototype.sort` is modelled by `List.mergeSort` (stable, sorted with
respect to the comparator, a permutation of its input — the guarantees
ECMAScript gives); `comparator(a, b) <= 0` (a may precede b) is
`sortKey b ≤ sortKey a`. -/
def loadConversations (parseTime : String → Option Int)
    (data : List ConversationSummary) : List ConversationSummary :=
  data.mergeSort (fun a b => decide (sortKey parseTime b ≤ sortKey parseTime a))

/-- Modelled from the spec claim's words (for comparison with the code's
`sortKey`): "each conversation's timestamp is its updated_at when present,
otherwise its created_at", i.e. presence-coalescing instead of the code's
falsy-coalescing. -/
def claimSortKey (parseTime : String → Option Int) (c : ConversationSummary) :
    Int :=
  (parseTime (match c.updated_at with
    | some u => u
    | none => c.created_at)).getD 0

/-- Concrete instances of the platform `Date` parser used in counterexamples,
consistent with ECMAScript `Date`: the empty string parses to `NaN` (`none`),
and the two ISO dates parse to their epoch milliseconds. -/
def dateParseEx (s : String) : Option Int :=
  if s = "2024-06-01" then some 1717200000000
  else if s = "2024-05-01" then some 1714521600000
  else none

/-- Shallow embedding of `App.handleTitleUpdate`:
`prev.map(c => c.id === id ? { ...c, title: newTitle } : c)`. -/
def handleTitleUpdate (prev : List ConversationSummary) (id newTitle : String) :
    List ConversationSummary :=
  prev.map (fun c => if c.id = id then { c with title := newTitle } else c)

/-- Concatenation, in emission order, of the `token` fragments of a frame list. -/
def tokensOf : List Frame → String
  | [] => ""
  | Frame.data (SSEEvent.token c) :: rest => c ++ tokensOf rest
  | _ :: rest => tokensOf rest

/-- The fragment an event contributes to the `aiContent` accumulator:
its content for a `token` event, nothing for every other event. -/
def tokenContent : SSEEvent → String
  | .token c => c
  | _ => ""

/-- Frames that stop the line loop of the chunk they appear in:
the `[DONE]` marker and an `auth_required` event. -/
def isBreakFrame : Frame → Bool
  | Frame.doneMarker => true
  | Frame.data e => isBreakEvent e
  | Frame.noise => false

theorem processEvent_aiContent (cid : String) (s : ChatState) (e : SSEEvent) :
    (processEvent cid s e).aiContent = s.aiContent ++ tokenContent e := by
  cases e with
  | token c =>
    simp only [processEvent, tokenContent]
    split
    · rfl
    · split <;> rfl
  | thought c => simp [processEvent, tokenContent]
  | question c => simp [processEvent, tokenContent]
  | auth_required sn p => simp [processEvent, tokenContent]
  | intent c => simp [processEvent, tokenContent]
  | plan c => simp [processEvent, tokenContent]
  | error c => simp [processEvent, tokenContent]
  | title c => simp [processEvent, tokenContent]

theorem processEvent_token_lastContent (cid : String) (s : ChatState) (c : String) :
    ((processEvent cid s (.token c)).messages).getLast?.map Message.content
      = some (s.aiContent ++ c) := by
  simp only [processEvent]
  split
  · simp [List.getLast?_concat]
  · split <;> simp [List.getLast?_concat]

theorem processLines_append_noBreak (cid : String) (frames : List Frame)
    (h : ∀ f ∈ frames, isBreakFrame f = false) (s : ChatState) (rest : List Frame) :
    processLines cid s (frames ++ rest)
      = processLines cid (processLines cid s frames) rest := by
  induction frames generalizing s with
  | nil => rfl
  | cons f fs ih =>
    have hf := h f (List.mem_cons_self ..)
    have hfs : ∀ g ∈ fs, isBreakFrame g = false :=
      fun g hg => h g (List.mem_cons_of_mem _ hg)
    cases f with
    | noise => simpa [processLines] using ih hfs s
    | doneMarker => simp [isBreakFrame] at hf
    | data e =>
      have he : isBreakEvent e = false := by simpa [isBreakFrame] using hf
      simp [processLines, he, ih hfs]

theorem processLines_aiContent (cid : String) (frames : List Frame)
    (h : ∀ f ∈ frames, isBreakFrame f = false) (s : ChatState) :
    (processLines cid s frames).aiContent = s.aiContent ++ tokensOf frames := by
  induction frames generalizing s with
  | nil => simp [processLines, tokensOf]
  | cons f fs ih =>
    have hf := h f (List.mem_cons_self ..)
    have hfs : ∀ g ∈ fs, isBreakFrame g = false :=
      fun g hg => h g (List.mem_cons_of_mem _ hg)
    cases f with
    | noise => simpa [processLines, tokensOf] using ih hfs s
    | doneMarker => simp [isBreakFrame] at hf
    | data e =>
      have he : isBreakEvent e = false := by simpa [isBreakFrame] using hf
      have step := processEvent_aiContent cid s e
      cases e with
      | token c =>
        simp only [processLines, he, if_false, Bool.false_eq_true, ite_false]
        rw [ih hfs, step]
        simp [tokensOf, tokenContent, String.append_assoc]
      | auth_required sn p => simp [isBreakEvent] at he
      | thought c =>
        simp only [processLines, he, Bool.false_eq_true, ite_false]
        rw [ih hfs, step]
        simp [tokensOf, tokenContent]
      | question c =>
        simp only [processLines, he, Bool.false_eq_true, ite_false]
        rw [ih hfs, step]
        simp [tokensOf, tokenContent]
      | intent c =>
        simp only [processLines, he, Bool.false_eq_true, ite_false]
        rw [ih hfs, step]
        simp [tokensOf, tokenContent]
      | plan c =>
        simp only [processLines, he, Bool.false_eq_true, ite_false]
        rw [ih hfs, step]
        simp [tokensOf, tokenContent]
      | error c =>
        simp only [processLines, he, Bool.false_eq_true, ite_false]
        rw [ih hfs, step]
        simp [tokensOf, tokenContent]
      | title c =>
        simp only [processLines, he, Bool.false_eq_true, ite_false]
        rw [ih hfs, step]
        simp [tokensOf, tokenContent]

/-- C2 counterexample: a `[DONE]` frame does NOT terminate processing of the
stream. With the marker alone in its chunk and a `token` frame arriving in a
later chunk, the later frame still appends an assistant message — the `break`
on `[DONE]` only leaves the line loop of the current chunk, so a frame
appearing after `[DONE]` in the input does modify the message list. -/
theorem handleSend_processes_frames_after_done_marker :
    (handleSend ⟨[], "hi", false, false⟩ (some "c")
        [[Frame.doneMarker], [Frame.data (.token "X")]] .normal).state.messages
      = [⟨"user", "hi", none, none⟩,
         ⟨"assistant", "X", some "message", none⟩] ∧
    (handleSend ⟨[], "hi", false, false⟩ (some "c")
        [[Frame.doneMarker]] .normal).state.messages
      = [⟨"user", "hi", none, none⟩] := by
  constructor <;> rfl

/-- C2 amended: the `[DONE]` marker only stops processing of the remaining
lines of the chunk it arrives in — for any state and any frames, the frames
after `[DONE]` within the same chunk never affect the result. Frames read in
later chunks are still processed (see the counterexample). -/
theorem processLines_stops_at_done_within_chunk (cid : String) (s : ChatState)
    (pre post : List Frame) :
    processLines cid s (pre ++ Frame.doneMarker :: post) = processLines cid s pre := by
  induction pre generalizing s with
  | nil => rfl
  | cons f fs ih =>
    cases f with
    | noise => simpa [processLines] using ih s
    | doneMarker => rfl
    | data e =>
      by_cases he : isBreakEvent e = true
      · simp [processLines, he]
      · simp only [Bool.not_eq_true] at he
        simp [processLines, he, ih]

/-- C3: evaluation of the code at the failing input. After the chunk carrying
the `auth_required` event, the client does process events of a later chunk:
the next `token` event is handled, and (because the last message is then the
`auth_required` message, whose role is `assistant` and whose type is not
`thought`) it overwrites the auth message in place — the final transcript has
no `auth_required`-typed message left at all, rather than one auth message
followed by no further processing. -/
theorem handleSend_processes_frames_after_auth_required :
    (handleSend ⟨[], "hi", false, false⟩ (some "c")
        [[Frame.data (.auth_required "github"
            ⟨"browser", "paste it", "GITHUB_TOKEN", none, none⟩)],
         [Frame.data (.token "X")]] .normal).state.messages
      = [⟨"user", "hi", none, none⟩,
         ⟨"assistant", "X", some "message",
           some ⟨"github", "browser", "paste it", "GITHUB_TOKEN", none, none⟩⟩] ∧
    (handleSend ⟨[], "hi", false, false⟩ (some "c")
        [[Frame.data (.auth_required "github"
            ⟨"browser", "paste it", "GITHUB_TOKEN", none, none⟩)]]
        .normal).state.messages
      = [⟨"user", "hi", none, none⟩,
         ⟨"assistant", "paste it", some "auth_required",
           some ⟨"github", "browser", "paste it", "GITHUB_TOKEN", none, none⟩⟩] := by
  constructor <;> rfl

/-- C7 counterexample: a clarification is NOT emitted as ordinary narration —
it arrives as a distinct `question` event kind with different processing. The
question's text does not enter the token accumulator, so a following `token`
event overwrites the question message: streaming `question "Q"` then
`token "!"` leaves only an assistant message `"!"`, while the same texts as
pure narration (`token "Q"`, `token "!"`) leave `"Q!"`. -/
theorem question_event_not_ordinary_narration :
    (handleSend ⟨[], "hi", false, false⟩ (some "c")
        [[Frame.data (.question "Q"), Frame.data (.token "!")]]
        .normal).state.messages
      = [⟨"user", "hi", none, none⟩,
         ⟨"assistant", "!", some "message", none⟩] ∧
    (handleSend ⟨[], "hi", false, false⟩ (some "c")
        [[Frame.data (.token "Q"), Frame.data (.token "!")]]
        .normal).state.messages
      = [⟨"user", "hi", none, none⟩,
         ⟨"assistant", "Q!", some "message", none⟩] := by
  constructor <;> rfl

/-- C7 amended: the clarification arrives as a distinct `question` event kind,
but the client renders it with exactly the shape of a regular assistant
message (role `assistant`, type `message`, no auth payload), and — when it is
the first assistant output of the turn, i.e. the accumulator is empty and the
last message is the user's — it yields the same message list as narration of
the same text. No terminal state is involved: processing simply continues. -/
theorem question_appends_regular_assistant_message (cid : String)
    (s : ChatState) (c : String) (h1 : s.aiContent = "")
    (h2 : ∃ m, s.messages.getLast? = some m ∧ m.role = "user") :
    (processEvent cid s (.question c)).messages
        = s.messages ++ [⟨"assistant", c, some "message", none⟩] ∧
    (processEvent cid s (.question c)).messages
        = (processEvent cid s (.token c)).messages := by
  obtain ⟨m, hm, hrole⟩ := h2
  constructor
  · rfl
  · simp [processEvent, hm, hrole, h1]

/-- C7 amended witness at a concrete state. -/
theorem question_appends_regular_assistant_message_witness :
    (processEvent "c" ⟨[⟨"user", "hi", none, none⟩], "", []⟩
        (.question "Q")).messages
      = [⟨"user", "hi", none, none⟩]
          ++ [⟨"assistant", "Q", some "message", none⟩] :=
  (question_appends_regular_assistant_message "c"
    ⟨[⟨"user", "hi", none, none⟩], "", []⟩ "Q" rfl
    ⟨⟨"user", "hi", none, none⟩, by simp, rfl⟩).1

/-- C8: when the input is empty or whitespace-only, or no conversation is
selected, `handleSend` is a no-op: the state (message list, input text,
loading/streaming flags) is returned unchanged, no title updates are made,
and no network request is issued. -/
theorem handleSend_guard_noop (st : UIState) (cid : Option String)
    (chunks : List (List Frame)) (term : Termination)
    (h : jsTrim st.input = "" ∨ cid = none) :
    handleSend st cid chunks term = ⟨st, [], false⟩ := by
  simp [handleSend, h]

/-- C8 witness: whitespace-only input with a selected conversation. -/
theorem handleSend_guard_noop_witness :
    handleSend ⟨[⟨"user", "old", none, none⟩], "   ", false, true⟩ (some "c")
        [[Frame.data (.token "X")]] .normal
      = ⟨⟨[⟨"user", "old", none, none⟩], "   ", false, true⟩, [], false⟩ :=
  handleSend_guard_noop _ _ _ _ (Or.inl (by decide))

/-- C1 counterexample: the assistant message is NOT the concatenation of the
`token` fragments received since the last non-token event. Streaming
`token "A"`, `thought "T"`, `token "B"` leaves a final assistant message
`"AB"` — the accumulator is never reset at the thought, so the fragment `"A"`
emitted before the non-token event is duplicated into the new message, which
the claim says should be exactly `"B"`. -/
theorem handleSend_repeats_tokens_after_thought :
    (handleSend ⟨[], "hi", false, false⟩ (some "c")
        [[Frame.data (.token "A"), Frame.data (.thought "T"),
          Frame.data (.token "B")]] .normal).state.messages
      = [⟨"user", "hi", none, none⟩,
         ⟨"assistant", "A", some "message", none⟩,
         ⟨"assistant", "T", some "thought", none⟩,
         ⟨"assistant", "AB", some "message", none⟩] ∧
    ("AB" : String) ≠ "B" := by
  exact ⟨rfl, by decide⟩

/-- C1 amended: the assistant message shown after a `token` event equals the
concatenation, in emission order, of ALL `token` fragments received since the
turn began — not since the last non-token event. For any turn whose frames
contain no break frame (`[DONE]` or `auth_required`) and end in a token, the
last displayed message's content is the whole turn's token concatenation. -/
theorem handleSend_lastMessage_concats_whole_turn (st : UIState) (cid : String)
    (chunk : List Frame) (c : String) (h1 : jsTrim st.input ≠ "")
    (h2 : ∀ f ∈ chunk, isBreakFrame f = false) :
    ((handleSend st (some cid) [chunk ++ [Frame.data (.token c)]]
        .normal).state.messages).getLast?.map Message.content
      = some (tokensOf chunk ++ c) := by
  have hcond : ¬ (jsTrim st.input = "" ∨ (some cid : Option String) = none) := by
    rintro (hc | hc)
    · exact h1 hc
    · exact Option.noConfusion hc
  simp only [handleSend, hcond, if_false, Option.getD_some]
  rw [show processChunks cid ⟨st.messages ++ [⟨"user", st.input, none, none⟩], "", []⟩
        [chunk ++ [Frame.data (.token c)]]
      = processLines cid ⟨st.messages ++ [⟨"user", st.input, none, none⟩], "", []⟩
          (chunk ++ [Frame.data (.token c)]) from rfl]
  rw [processLines_append_noBreak cid chunk h2]
  rw [show processLines cid
        (processLines cid ⟨st.messages ++ [⟨"user", st.input, none, none⟩], "", []⟩ chunk)
        [Frame.data (.token c)]
      = processEvent cid
          (processLines cid ⟨st.messages ++ [⟨"user", st.input, none, none⟩], "", []⟩ chunk)
          (.token c) from rfl]
  rw [processEvent_token_lastContent]
  rw [processLines_aiContent cid chunk h2]
  rfl

/-- C1 amended witness at a concrete stream (token, thought, token). -/
theorem handleSend_lastMessage_concats_whole_turn_witness :
    ((handleSend ⟨[], "hi", false, false⟩ (some "c")
        [[Frame.data (.token "A"), Frame.data (.thought "T"),
          Frame.data (.token "B")]] .normal).state.messages).getLast?.map
        Message.content
      = some (tokensOf [Frame.data (.token "A"), Frame.data (.thought "T")]
          ++ "B") :=
  handleSend_lastMessage_concats_whole_turn ⟨[], "hi", false, false⟩ "c"
    [Frame.data (.token "A"), Frame.data (.thought "T")] "B"
    (by decide) (by decide)

/-- C4 counterexample: the submit does NOT send exactly the pasted token for
every non-empty pasted token. A token with surrounding whitespace is sent
trimmed (`" tok "` is sent as `"tok"`), and a whitespace-only token — which
is a non-empty string — is not sent at all (the guard returns first). -/
theorem handleSubmit_sends_trimmed_not_raw_token :
    (handleSubmit "github" "GITHUB_TOKEN" " tok " none .success).sent
        = some ("github", "tok", "GITHUB_TOKEN") ∧
    (" tok " : String) ≠ "tok" ∧
    (handleSubmit "github" "GITHUB_TOKEN" "   " none .success).sent = none := by
  exact ⟨by decide, by decide, by decide⟩

/-- C4 amended: for every pasted token whose trimmed form is non-empty, the
submit sends exactly the trimmed token with the given provider name and
target credential key; on success the resolved state is shown
(`isSuccess = true`, no error); on a failed submit the challenge stays
pending with a surfaced failure reason (`isSuccess` stays false, the error
text is set) and no automatic retry occurs (a single request per submit). -/
theorem handleSubmit_trimmed_token_spec (serverName targetEnvVar tokenField : String)
    (prevError : Option String) (outcome : SubmitOutcome)
    (h : jsTrim tokenField ≠ "") :
    (handleSubmit serverName targetEnvVar tokenField prevError outcome).sent
        = some (serverName, jsTrim tokenField, targetEnvVar) ∧
    (handleSubmit serverName targetEnvVar tokenField prevError .success).isSuccess
        = true ∧
    (handleSubmit serverName targetEnvVar tokenField prevError .success).error
        = none ∧
    (handleSubmit serverName targetEnvVar tokenField prevError .failure).isSuccess
        = false ∧
    (handleSubmit serverName targetEnvVar tokenField prevError .failure).error
        = some "Failed to save token. Please try again." ∧
    (handleSubmit serverName targetEnvVar tokenField prevError outcome).isSubmitting
        = false := by
  cases outcome <;> simp [handleSubmit, h]

/-- C4 amended witness at a concrete trimmable token. -/
theorem handleSubmit_trimmed_token_spec_witness :
    (handleSubmit "github" "GITHUB_TOKEN" " tok " none .success).sent
      = some ("github", jsTrim " tok ", "GITHUB_TOKEN") :=
  (handleSubmit_trimmed_token_spec "github" "GITHUB_TOKEN" " tok " none
    .success (by decide)).1

/-- C5: when the in-flight stream is aborted (cancellation), the final message
list is exactly what the received events produced — the abort path appends no
error message and no extra assistant message — and both the loading and the
streaming flags end up cleared (by the `finally` block, and by `handleStop`
itself when a controller is present). -/
theorem handleSend_abort_adds_no_message_clears_flags (st : UIState)
    (cid : String) (chunks : List (List Frame)) (h : jsTrim st.input ≠ "") :
    (handleSend st (some cid) chunks .abortError).state.messages
        = (processChunks cid
            ⟨st.messages ++ [⟨"user", st.input, none, none⟩], "", []⟩
            chunks).messages ∧
    (handleSend st (some cid) chunks .abortError).state.isLoading = false ∧
    (handleSend st (some cid) chunks .abortError).state.isStreaming = false ∧
    handleStop true st.isStreaming st.isLoading = (false, false) := by
  refine ⟨?_, ?_, ?_, rfl⟩ <;> simp [handleSend, h]

/-- C5 witness: aborting after one received token chunk. -/
theorem handleSend_abort_adds_no_message_clears_flags_witness :
    (handleSend ⟨[], "hi", false, false⟩ (some "c")
        [[Frame.data (.token "A")]] .abortError).state.messages
      = (processChunks "c" ⟨[⟨"user", "hi", none, none⟩], "", []⟩
          [[Frame.data (.token "A")]]).messages :=
  (handleSend_abort_adds_no_message_clears_flags ⟨[], "hi", false, false⟩ "c"
    [[Frame.data (.token "A")]] (by decide)).1

/-- C6 counterexample: a previously saved credential value IS rendered as
readable text by a client view. `getUserMCPConfigs` returns the saved values
to the client, and after one click of the visibility toggle the integrations
settings input for that field has `type = "text"` with the saved secret as
its value. -/
theorem credential_rendered_readable_after_toggle :
    inputType (toggleVisibility [] "github" "GITHUB_TOKEN") "github"
        "GITHUB_TOKEN" = "text" ∧
    inputValue [("github", [("GITHUB_TOKEN", "ghp_secret123")])] "github"
        "GITHUB_TOKEN" = "ghp_secret123" ∧
    ("text" : String) ≠ "password" := by
  exact ⟨by decide, by decide, by decide⟩

/-- C6 amended: saved credential values are echoed back to the client by
`getUserMCPConfigs` and rendered in the integrations settings input, but
masked by default: the input is a password field whenever its field id has
not been toggled visible, and the saved value is shown readable only after a
user-initiated visibility toggle. -/
theorem credential_input_masking (visible : List String)
    (serverName envVar value : String) :
    inputType [] serverName envVar = "password" ∧
    (fieldId serverName envVar ∈ visible →
        inputType visible serverName envVar = "text") ∧
    (fieldId serverName envVar ∉ visible →
        inputType visible serverName envVar = "password") ∧
    inputValue [(serverName, [(envVar, value)])] serverName envVar = value := by
  refine ⟨by simp [inputType], fun h => by simp [inputType, h],
    fun h => by simp [inputType, h], by simp [inputValue, List.lookup]⟩

/-- C6 amended witness: one toggled field is rendered readable. -/
theorem credential_input_masking_witness :
    inputType ["github:GITHUB_TOKEN"] "github" "GITHUB_TOKEN" = "text" :=
  (credential_input_masking ["github:GITHUB_TOKEN"] "github" "GITHUB_TOKEN"
    "v").2.1 (by decide)

unseal List.merge List.mergeSort in
/-- C9 counterexample: the sort key is NOT "updated_at when present, otherwise
created_at". The comparator uses JavaScript falsy coalescing
(`a.updated_at || a.created_at`), so a conversation whose `updated_at` is
present but empty falls back to its parsable `created_at` and sorts first,
while the claim (empty string is unparsable, so treated as time 0) would put
it last. -/
theorem loadConversations_empty_updated_at_not_last :
    loadConversations dateParseEx
        [⟨"b", "B", "2024-05-01", none⟩, ⟨"a", "A", "2024-06-01", some ""⟩]
      = [⟨"a", "A", "2024-06-01", some ""⟩, ⟨"b", "B", "2024-05-01", none⟩] ∧
    ¬ List.Pairwise
        (fun x y => claimSortKey dateParseEx y ≤ claimSortKey dateParseEx x)
        (loadConversations dateParseEx
          [⟨"b", "B", "2024-05-01", none⟩,
           ⟨"a", "A", "2024-06-01", some ""⟩]) := by
  constructor
  · rfl
  · decide

/-- C9 amended: `loadConversations` presents the summaries sorted by
descending timestamp where the timestamp is `updated_at` when present AND
non-empty, otherwise `created_at`, an unparsable timestamp being treated as
time 0 (`sortKey`); the output is a permutation of the server's list, so no
summary is added or dropped. -/
theorem loadConversations_sorted_and_perm (parseTime : String → Option Int)
    (data : List ConversationSummary) :
    (loadConversations parseTime data).Perm data ∧
    List.Pairwise
      (fun a b => sortKey parseTime b ≤ sortKey parseTime a)
      (loadConversations parseTime data) := by
  constructor
  · exact List.mergeSort_perm data _
  · have h := @List.sorted_mergeSort ConversationSummary
      (fun a b => decide (sortKey parseTime b ≤ sortKey parseTime a))
      (fun a b c h1 h2 => by
        simp only [decide_eq_true_eq] at h1 h2 ⊢
        exact le_trans h2 h1)
      (fun a b => by
        simp only [Bool.or_eq_true, decide_eq_true_eq]
        exact le_total _ _)
      data
    exact h.imp (fun hab => by simpa using hab)

/-- C10: `handleTitleUpdate` changes only the title of the conversations
whose id matches: the list keeps its length, every summary with a different
id is returned unchanged at its position, a summary with the matching id
keeps its id, created_at and updated_at and only its title becomes the new
one, and when no summary has the id the list is returned unchanged. -/
theorem handleTitleUpdate_frame_spec (l : List ConversationSummary)
    (id newTitle : String) :
    (handleTitleUpdate l id newTitle).length = l.length ∧
    (∀ i : Nat, ∀ c : ConversationSummary, l[i]? = some c → c.id ≠ id →
        (handleTitleUpdate l id newTitle)[i]? = some c) ∧
    (∀ i : Nat, ∀ c : ConversationSummary, l[i]? = some c → c.id = id →
        (handleTitleUpdate l id newTitle)[i]?
          = some ⟨c.id, newTitle, c.created_at, c.updated_at⟩) ∧
    ((∀ c ∈ l, c.id ≠ id) → handleTitleUpdate l id newTitle = l) := by
  refine ⟨List.length_map .., ?_, ?_, ?_⟩
  · intro i c hc hne
    simp [handleTitleUpdate, List.getElem?_map, hc, hne]
  · intro i c hc heq
    simp [handleTitleUpdate, List.getElem?_map, hc, heq]
  · intro hall
    induction l with
    | nil => rfl
    | cons x xs ih =>
      have hx : x.id ≠ id := hall x (List.mem_cons_self ..)
      have hxs := ih (fun c hc => hall c (List.mem_cons_of_mem _ hc))
      simp only [handleTitleUpdate, List.map_cons, if_neg hx] at hxs ⊢
      exact congrArg (x :: ·) hxs

/-- C10 witness: a title update whose id matches no conversation. -/
theorem handleTitleUpdate_frame_spec_witness :
    handleTitleUpdate [⟨"a", "t0", "c0", none⟩] "z" "new"
      = [⟨"a", "t0", "c0", none⟩] :=
  (handleTitleUpdate_frame_spec [⟨"a", "t0", "c0", none⟩] "z" "new").2.2.2
    (by decide)

end AdmGPT
